import Mathlib

/-!
Verification development for the message-RAG pipeline: shallow embedding of
the retry wrapper, response cache, rate limiter, vector store, message
processor and query engine, together with theorems about their behaviour.

Modelling conventions:
* Python exceptions are values of `PyExc` (class name + message); fallible
  code returns `Except PyExc α`.
* Wall-clock times and float quantities are rationals (`ℚ`).
* Python dicts backing JSON data are modelled by `JValue`; file stores and
  the vector collection are association lists keyed by strings.
* External collaborators (clock, embedding model, hash function, LLM) are
  explicit function parameters.
-/

namespace MessageRag

/-- A Python exception: class name (kind) and message. -/
structure PyExc where
  kind : String
  msg : String
deriving DecidableEq, Repr

/-! ## Retry wrapper (`src/handlers/error_handler.py`)

`retry_on_error(max_retries, delay, backoff, exceptions)` wraps an operation;
the wrapped call loops `for attempt in range(max_retries + 1)`, returning on
success, sleeping and retrying on an exception matched by `exceptions` while
`attempt < max_retries`, re-raising the last exception otherwise; an
exception not matched by `exceptions` escapes the `try` immediately.

The operation is modelled as `op : Nat → Except PyExc α` (result of its
`n`-th invocation, counting from 0); the wrapper returns the final result
paired with the number of invocations made. -/

/-- One pass of the retry loop starting at invocation index `attempt` with
`remaining` retries still allowed (`remaining = max_retries - attempt`). -/
def retryFrom (retryable : PyExc → Bool) (op : Nat → Except PyExc α)
    (attempt : Nat) : Nat → Except PyExc α × Nat
  | 0 =>
    match op attempt with
    | .ok a => (.ok a, 1)
    | .error e => (.error e, 1)
  | remaining + 1 =>
    match op attempt with
    | .ok a => (.ok a, 1)
    | .error e =>
      if retryable e then
        let r := retryFrom retryable op (attempt + 1) remaining
        (r.1, r.2 + 1)
      else
        (.error e, 1)

/-- Model of `retry_on_error` applied to `op`: result and total invocation count. -/
def retry_on_error (max_retries : Nat) (retryable : PyExc → Bool)
    (op : Nat → Except PyExc α) : Except PyExc α × Nat :=
  retryFrom retryable op 0 max_retries

theorem retryFrom_always_fails {α : Type} (retryable : PyExc → Bool)
    (op : Nat → Except PyExc α) (f : Nat → PyExc)
    (hop : ∀ n, op n = .error (f n)) (hr : ∀ n, retryable (f n) = true) :
    ∀ remaining attempt,
      retryFrom retryable op attempt remaining
        = (.error (f (attempt + remaining)), remaining + 1) := by
  intro remaining
  induction remaining with
  | zero =>
    intro attempt
    simp [retryFrom, hop attempt]
  | succ k ih =>
    intro attempt
    simp only [retryFrom, hop attempt, hr attempt, if_true, ih (attempt + 1)]
    have h : attempt + 1 + k = attempt + (k + 1) := by omega
    rw [h]

/-! ## Response cache (`src/utils/cache.py`)

The cache directory is modelled as an association list from file stem
(cache key) to file content.  The content of a file is either text that
`json.load` rejects (`malformed`) or a parsed JSON value (`parsed v`);
Python JSON values are modelled by `JValue`.  The SHA-256 hash is an explicit
function parameter `hash`; `_get_cache_key` applies it to the concatenation
`model ++ ":" ++ prompt` exactly as in the source. -/

/-- A JSON value as produced by `json.load`. -/
inductive JValue where
  | jnull : JValue
  | jbool : Bool → JValue
  | jnum : ℚ → JValue
  | jstr : String → JValue
  | jarr : List JValue → JValue
  | jobj : List (String × JValue) → JValue

/-- Content of a cache file: either rejected by `json.load` or parsed. -/
inductive FileContent where
  | malformed : FileContent
  | parsed : JValue → FileContent

/-- The cache directory: association list keyed by cache key. -/
abbrev CacheStore : Type := List (String × FileContent)

/-- Insert (overwrite) a key in an association list, replacing the first
binding of the key in place, else appending. -/
def listInsert (k : String) (v : α) : List (String × α) → List (String × α)
  | [] => [(k, v)]
  | (k', v') :: rest =>
    if k' = k then (k, v) :: rest else (k', v') :: listInsert k v rest

/-- Remove the first binding of a key (the `unlink` of its file). -/
def storeErase (k : String) : List (String × α) → List (String × α)
  | [] => []
  | (k', v') :: rest =>
    if k' = k then rest else (k', v') :: storeErase k rest

/-- Model of `ResponseCache._get_cache_key`: hash of `f"{model}:{prompt}"`. -/
def getCacheKey (hash : String → String) (prompt model : String) : String :=
  hash (model ++ ":" ++ prompt)

/-- Python subscript `v[key]` for a string key: field lookup on a dict,
`KeyError` when the key is absent, `TypeError` on any non-dict value. -/
def jsonSubscript (v : JValue) (key : String) : Except PyExc JValue :=
  match v with
  | .jobj fields =>
    match fields.lookup key with
    | some x => .ok x
    | none => .error ⟨"KeyError", key⟩
  | _ => .error ⟨"TypeError", "value is not subscriptable by a string"⟩

/-- Python numeric coercion used by `time.time() - data["timestamp"]`:
numbers and booleans are numeric, everything else raises `TypeError`. -/
def jsonAsNum : JValue → Except PyExc ℚ
  | .jnum q => .ok q
  | .jbool b => .ok (if b then 1 else 0)
  | _ => .error ⟨"TypeError", "unsupported operand type for subtraction"⟩

namespace ResponseCache

/-- Body of `ResponseCache.get` once the file content (or its absence) is
known.  The `try` block catches exactly `json.JSONDecodeError` and
`KeyError`, unlinking the entry; the expiry branch also unlinks; any other
exception (notably `TypeError` from `time.time() - data["timestamp"]` on a
non-numeric timestamp, or from subscripting a non-dict) escapes and leaves
the entry in place. -/
def getOutcome (key : String) (store : CacheStore) (ttl now : ℚ) :
    Option FileContent → Except PyExc (Option JValue) × CacheStore
  | none => (.ok none, store)
  | some .malformed => (.ok none, storeErase key store)
  | some (.parsed data) =>
    match jsonSubscript data "timestamp" with
    | .error e =>
      if e.kind = "KeyError" then (.ok none, storeErase key store)
      else (.error e, store)
    | .ok tv =>
      match jsonAsNum tv with
      | .error e => (.error e, store)
      | .ok ts =>
        if ttl < now - ts then (.ok none, storeErase key store)
        else
          match jsonSubscript data "response" with
          | .error e =>
            if e.kind = "KeyError" then (.ok none, storeErase key store)
            else (.error e, store)
          | .ok r => (.ok (some r), store)

/-- Model of `ResponseCache.get(prompt, model)` at wall-clock time `now`: returns the
outcome (a raised exception, or `none` / the cached response) together with
the cache directory after the call. -/
def get (hash : String → String) (store : CacheStore) (ttl now : ℚ)
    (prompt model : String) : Except PyExc (Option JValue) × CacheStore :=
  let key := getCacheKey hash prompt model
  getOutcome key store ttl now (store.lookup key)

/-- Model of `ResponseCache.set(prompt, model, response)` at wall-clock time `now`:
writes `{timestamp, prompt, model, response}` under the cache key. -/
def set (hash : String → String) (store : CacheStore) (now : ℚ)
    (prompt model response : String) : CacheStore :=
  listInsert (getCacheKey hash prompt model)
    (.parsed (.jobj
      [("timestamp", .jnum now), ("prompt", .jstr prompt),
       ("model", .jstr model), ("response", .jstr response)]))
    store

end ResponseCache

theorem lookup_listInsert_self (k : String) (v : α) :
    ∀ l : List (String × α), (listInsert k v l).lookup k = some v := by
  intro l
  induction l with
  | nil => simp [listInsert]
  | cons p rest ih =>
    obtain ⟨k', v'⟩ := p
    by_cases h : k' = k
    · simp [listInsert, h, List.lookup]
    · simp only [listInsert, if_neg h, List.lookup]
      have hbeq : (k == k') = false := by
        simp [beq_iff_eq]
        exact fun he => h he.symm
      rw [hbeq]
      exact ih

theorem get_set_same_key (hash : String → String) (store : CacheStore)
    (ttl now : ℚ) (p1 m1 p2 m2 r : String)
    (hkey : getCacheKey hash p2 m2 = getCacheKey hash p1 m1) (h : 0 ≤ ttl) :
    ResponseCache.get hash (ResponseCache.set hash store now p1 m1 r) ttl now p2 m2
      = (.ok (some (.jstr r)), ResponseCache.set hash store now p1 m1 r) := by
  simp only [ResponseCache.get, ResponseCache.set, hkey, lookup_listInsert_self]
  have h1 : jsonSubscript (.jobj
      [("timestamp", .jnum now), ("prompt", .jstr p1),
       ("model", .jstr m1), ("response", .jstr r)]) "timestamp" = .ok (.jnum now) := rfl
  have h2 : jsonSubscript (.jobj
      [("timestamp", .jnum now), ("prompt", .jstr p1),
       ("model", .jstr m1), ("response", .jstr r)]) "response" = .ok (.jstr r) := rfl
  simp only [ResponseCache.getOutcome, h1, h2, jsonAsNum, sub_self]
  rw [if_neg (not_lt.mpr h)]

theorem get_set_expired (hash : String → String) (store : CacheStore)
    (ttl now later : ℚ) (p m r : String) (h : ttl < later - now) :
    ResponseCache.get hash (ResponseCache.set hash store now p m r) ttl later p m
      = (.ok none,
          storeErase (getCacheKey hash p m) (ResponseCache.set hash store now p m r)) := by
  simp only [ResponseCache.get, ResponseCache.set, lookup_listInsert_self]
  have h1 : jsonSubscript (.jobj
      [("timestamp", .jnum now), ("prompt", .jstr p),
       ("model", .jstr m), ("response", .jstr r)]) "timestamp" = .ok (.jnum now) := rfl
  simp only [ResponseCache.getOutcome, h1, jsonAsNum]
  rw [if_pos h]

/-- Claim C5: `set(p, m, r)` immediately followed by `get(p, m)` returns
exactly `r`; and once more than `ttl_seconds` have elapsed since the `set`,
`get(p, m)` returns absent and removes the stored entry from storage. -/
theorem cache_set_get_roundtrip_C5 (hash : String → String) (store : CacheStore)
    (ttl now later : ℚ) (p m r : String) :
    (0 ≤ ttl →
      ResponseCache.get hash (ResponseCache.set hash store now p m r) ttl now p m
        = (.ok (some (.jstr r)), ResponseCache.set hash store now p m r))
    ∧ (ttl < later - now →
      ResponseCache.get hash (ResponseCache.set hash store now p m r) ttl later p m
        = (.ok none,
            storeErase (getCacheKey hash p m) (ResponseCache.set hash store now p m r))) :=
  ⟨fun h => get_set_same_key hash store ttl now p m p m r rfl h,
   fun h => get_set_expired hash store ttl now later p m r h⟩

theorem cache_set_get_roundtrip_C5_witness :
    ((0 : ℚ) ≤ 10 ∧ (10 : ℚ) < 11 - 0)
    ∧ ResponseCache.get id (ResponseCache.set id [] 0 "p" "m" "r") 10 0 "p" "m"
        = (.ok (some (.jstr "r")), ResponseCache.set id [] 0 "p" "m" "r")
    ∧ ResponseCache.get id (ResponseCache.set id [] 0 "p" "m" "r") 10 11 "p" "m"
        = (.ok none, []) :=
  ⟨⟨by norm_num, by norm_num⟩,
   (cache_set_get_roundtrip_C5 id [] 10 0 11 "p" "m" "r").1 (by norm_num),
   (cache_set_get_roundtrip_C5 id [] 10 0 11 "p" "m" "r").2 (by norm_num)⟩

/-- Claim C6 (amended): a stored cache entry that is malformed JSON, or a
JSON object with no "timestamp" field, or an unexpired object with a numeric
timestamp but no "response" field, is deleted by `get` and the lookup
returns absent without raising; a non-numeric "timestamp" (or a non-object
top-level value), however, raises an uncaught `TypeError`. -/
theorem cache_get_soft_fail_C6 (hash : String → String) (store : CacheStore)
    (ttl now : ℚ) (p m : String) (c : FileContent)
    (hl : store.lookup (getCacheKey hash p m) = some c)
    (hc : c = .malformed
        ∨ (∃ l, c = .parsed (.jobj l) ∧ l.lookup "timestamp" = none)
        ∨ (∃ l ts, c = .parsed (.jobj l) ∧ l.lookup "timestamp" = some (.jnum ts)
             ∧ ¬ ttl < now - ts ∧ l.lookup "response" = none)) :
    ResponseCache.get hash store ttl now p m
      = (.ok none, storeErase (getCacheKey hash p m) store) := by
  simp only [ResponseCache.get, hl]
  rcases hc with rfl | ⟨l, rfl, hts⟩ | ⟨l, ts, rfl, hts, hexp, hresp⟩
  · rfl
  · simp [ResponseCache.getOutcome, jsonSubscript, hts]
  · simp [ResponseCache.getOutcome, jsonSubscript, jsonAsNum, hts, hresp, hexp]

theorem cache_get_soft_fail_C6_witness :
    ResponseCache.get id [("m:p", FileContent.malformed)] 10 0 "p" "m"
      = (.ok none, []) :=
  cache_get_soft_fail_C6 id [("m:p", FileContent.malformed)] 10 0 "p" "m"
    FileContent.malformed rfl (Or.inl rfl)

/-- Counterexample to claim C6 as stated: an entry whose "timestamp" field
is the string "oops" makes `get` raise `TypeError` to the caller (only
`JSONDecodeError` and `KeyError` are caught), rather than returning absent. -/
theorem cache_get_raises_C6_counterexample :
    (ResponseCache.get id
        [("m:p", FileContent.parsed (.jobj
          [("timestamp", .jstr "oops"), ("response", .jstr "r")]))]
        100 0 "p" "m").1
      = .error ⟨"TypeError", "unsupported operand type for subtraction"⟩ := rfl

/-- Claim C10: distinct (prompt, model) pairs map to the same cache key —
the key hashes the plain concatenation `model ++ ":" ++ prompt`, so
(prompt "c", model "a:b") and (prompt "b:c", model "a") share one key for
every hash function — and a `set` under the first pair is what a `get`
under the second pair returns. -/
theorem cache_key_collision_C10 :
    (∀ hash : String → String,
      getCacheKey hash "c" "a:b" = getCacheKey hash "b:c" "a")
    ∧ (("c", "a:b") ≠ (("b:c", "a") : String × String))
    ∧ ∀ (hash : String → String) (store : CacheStore) (now ttl : ℚ) (r : String),
        0 ≤ ttl →
        (ResponseCache.get hash (ResponseCache.set hash store now "c" "a:b" r)
            ttl now "b:c" "a").1 = .ok (some (.jstr r)) := by
  refine ⟨fun hash => rfl, by decide, fun hash store now ttl r h => ?_⟩
  rw [get_set_same_key hash store ttl now "c" "a:b" "b:c" "a" r rfl h]

theorem cache_key_collision_C10_witness :
    getCacheKey id "c" "a:b" = getCacheKey id "b:c" "a"
    ∧ (0 : ℚ) ≤ 5
    ∧ (ResponseCache.get id (ResponseCache.set id [] 0 "c" "a:b" "resp")
          5 0 "b:c" "a").1 = .ok (some (.jstr "resp")) :=
  ⟨cache_key_collision_C10.1 id, by norm_num,
   cache_key_collision_C10.2.2 id [] 0 5 "resp" (by norm_num)⟩

/-- Claim C3: an operation that always fails with a retryable kind under
`max_retries = N` is invoked exactly `N + 1` times and the wrapper re-raises
the last failure unchanged (same kind and message); an operation whose first
failure kind is outside the retryable set propagates after exactly one
invocation. -/
theorem retry_exhaustion_C3 {α : Type} (retryable : PyExc → Bool)
    (op : Nat → Except PyExc α) (N : Nat) :
    (∀ f : Nat → PyExc, (∀ n, op n = .error (f n)) →
      (∀ n, retryable (f n) = true) →
      retry_on_error N retryable op = (.error (f N), N + 1))
    ∧ (∀ e, op 0 = .error e → retryable e = false →
      retry_on_error N retryable op = (.error e, 1)) := by
  constructor
  · intro f hop hr
    unfold retry_on_error
    rw [retryFrom_always_fails retryable op f hop hr N 0]
    simp
  · intro e h0 hr
    unfold retry_on_error
    cases N with
    | zero => simp [retryFrom, h0]
    | succ k => simp [retryFrom, h0, hr]

theorem retry_exhaustion_C3_witness :
    retry_on_error 3 (fun e => e.kind == "RateLimitError")
        (fun _ => (.error ⟨"RateLimitError", "limit"⟩ : Except PyExc Unit))
      = (.error ⟨"RateLimitError", "limit"⟩, 4)
    ∧ retry_on_error 3 (fun e => e.kind == "RateLimitError")
        (fun _ => (.error ⟨"KeyError", "boom"⟩ : Except PyExc Unit))
      = (.error ⟨"KeyError", "boom"⟩, 1) :=
  ⟨(retry_exhaustion_C3 (fun e => e.kind == "RateLimitError")
      (fun _ => (.error ⟨"RateLimitError", "limit"⟩ : Except PyExc Unit)) 3).1
      (fun _ => ⟨"RateLimitError", "limit"⟩) (fun _ => rfl)
      (fun _ =>
        (by decide :
          ((PyExc.mk "RateLimitError" "limit").kind == "RateLimitError") = true)),
   (retry_exhaustion_C3 (fun e => e.kind == "RateLimitError")
      (fun _ => (.error ⟨"KeyError", "boom"⟩ : Except PyExc Unit)) 3).2
      ⟨"KeyError", "boom"⟩ rfl (by decide)⟩

/-! ## Rate limiter (`src/utils/rate_limiter.py`)

Sliding-window admission control.  `__init__` fixes `window_size = 60.0`;
state is a deque of admitted timestamps, oldest first.  Wall-clock readings
are explicit parameters: `now` is the first `time.time()` reading in
`acquire`, `now2` the re-read after the (possible) sleep taken in the
at-capacity branch. -/

/-- The window duration, fixed at 60 seconds in `__init__`. -/
def windowSize : ℚ := 60

/-- Rate limiter state: capacity and the deque of admitted timestamps. -/
structure RateLimiter where
  requests_per_minute : Nat
  requests : List ℚ
deriving Repr

/-- The purge loop `while self.requests and now - self.requests[0] >
self.window_size: self.requests.popleft()`. -/
def purge (now : ℚ) (q : List ℚ) : List ℚ :=
  q.dropWhile (fun t => decide (windowSize < now - t))

namespace RateLimiter

/-- Model of `acquire` with explicit clock readings; returns the new state and the
duration slept (0 when below capacity). -/
def acquire (rl : RateLimiter) (now now2 : ℚ) : RateLimiter × ℚ :=
  let q := purge now rl.requests
  if rl.requests_per_minute ≤ q.length then
    let sleepT := windowSize - (now - q.headD 0)
    ({ rl with requests := purge now2 q ++ [now2] }, max sleepT 0)
  else
    ({ rl with requests := q ++ [now] }, 0)

/-- The timestamp `acquire` appends: `now2` in the at-capacity branch,
`now` otherwise. -/
def acquireEff (rl : RateLimiter) (now now2 : ℚ) : ℚ :=
  if rl.requests_per_minute ≤ (purge now rl.requests).length then now2 else now

/-- Model of `get_current_usage` at time `now`: purges expired entries, then reports
`current_requests` (paired with the pruned state). -/
def get_current_usage (rl : RateLimiter) (now : ℚ) : RateLimiter × Nat :=
  let q := purge now rl.requests
  ({ rl with requests := q }, q.length)

/-- Run a sequence of `acquire` calls, each given by its two clock
readings. -/
def runAcquires (rl : RateLimiter) : List (ℚ × ℚ) → RateLimiter
  | [] => rl
  | (n1, n2) :: rest => runAcquires (rl.acquire n1 n2).1 rest

/-- The timestamps admitted by a sequence of `acquire` calls. -/
def admittedTimes (rl : RateLimiter) : List (ℚ × ℚ) → List ℚ
  | [] => []
  | (n1, n2) :: rest =>
    rl.acquireEff n1 n2 :: admittedTimes (rl.acquire n1 n2).1 rest

/-- The clock reading at which the last admission of a run happened
(`T` for an empty run). -/
def lastEff (rl : RateLimiter) (T : ℚ) : List (ℚ × ℚ) → ℚ
  | [] => T
  | (n1, n2) :: rest => lastEff (rl.acquire n1 n2).1 (rl.acquireEff n1 n2) rest

/-- Monotone wall clock: successive readings never decrease. -/
def clockMono : ℚ → List (ℚ × ℚ) → Prop
  | _, [] => True
  | T, (n1, n2) :: rest => T ≤ n1 ∧ n1 ≤ n2 ∧ clockMono n2 rest

end RateLimiter

theorem purge_eq_filter (now : ℚ) :
    ∀ q : List ℚ, q.Pairwise (· ≤ ·) →
      purge now q = q.filter (fun t => decide (now - t ≤ windowSize)) := by
  intro q
  induction q with
  | nil => intro _; rfl
  | cons a rest ih =>
    intro hp
    rw [List.pairwise_cons] at hp
    obtain ⟨ha, hrest⟩ := hp
    by_cases hpa : windowSize < now - a
    · have h2 : ¬ now - a ≤ windowSize := not_le.mpr hpa
      rw [purge] at ih ⊢
      simp only [List.dropWhile_cons, List.filter_cons, decide_eq_true hpa,
        decide_eq_false h2, if_true, if_false]
      exact ih hrest
    · have h2 : now - a ≤ windowSize := not_lt.mp hpa
      rw [purge]
      simp only [List.dropWhile_cons, List.filter_cons, decide_eq_false hpa,
        decide_eq_true h2, Bool.false_eq_true, if_true, if_false]
      congr 1
      symm
      rw [List.filter_eq_self]
      intro b hb
      have hab : a ≤ b := ha b hb
      exact decide_eq_true (by linarith)

theorem filter_singleton_self (now : ℚ) :
    List.filter (fun t => decide (now - t ≤ windowSize)) [now] = [now] := by
  have h : (decide (now - now ≤ windowSize)) = true := by
    rw [sub_self]
    decide
  simp [List.filter_cons, h]
  norm_num [windowSize]

theorem filter_window_mono (now now' : ℚ) (h : now ≤ now') (q : List ℚ) :
    (q.filter (fun t => decide (now - t ≤ windowSize))).filter
        (fun t => decide (now' - t ≤ windowSize))
      = q.filter (fun t => decide (now' - t ≤ windowSize)) := by
  rw [List.filter_filter]
  apply List.filter_congr
  intro t _
  by_cases h' : now' - t ≤ windowSize
  · have h2 : now - t ≤ windowSize := by linarith
    simp [h', h2]
  · simp [h']

theorem filter_window_idem (p : ℚ → Bool) (q : List ℚ) :
    (q.filter p).filter p = q.filter p := by
  rw [List.filter_filter]
  apply List.filter_congr
  intro t _
  simp

theorem acquire_requests_eq (rl : RateLimiter) (now now2 : ℚ)
    (hs : rl.requests.Pairwise (· ≤ ·))
    (hb : ∀ t ∈ rl.requests, t ≤ now) (h12 : now ≤ now2) :
    (rl.acquire now now2).1.requests
      = (rl.requests ++ [rl.acquireEff now now2]).filter
          (fun t => decide (rl.acquireEff now now2 - t ≤ windowSize)) := by
  simp only [RateLimiter.acquire, RateLimiter.acquireEff]
  by_cases hcap : rl.requests_per_minute ≤ (purge now rl.requests).length
  · simp only [if_pos hcap]
    show purge now2 (purge now rl.requests) ++ [now2] = _
    rw [purge_eq_filter now rl.requests hs,
        purge_eq_filter now2 _ (hs.filter _),
        filter_window_mono now now2 h12,
        List.filter_append]
    congr 1
    exact (filter_singleton_self now2).symm
  · simp only [if_neg hcap]
    show purge now rl.requests ++ [now] = _
    rw [purge_eq_filter now rl.requests hs, List.filter_append]
    congr 1
    exact (filter_singleton_self now).symm

theorem le_acquireEff (rl : RateLimiter) (now now2 : ℚ) (h12 : now ≤ now2) :
    now ≤ rl.acquireEff now now2 := by
  unfold RateLimiter.acquireEff
  split
  · exact h12
  · exact le_refl now

theorem acquireEff_le (rl : RateLimiter) (now now2 : ℚ) (h12 : now ≤ now2) :
    rl.acquireEff now now2 ≤ now2 := by
  unfold RateLimiter.acquireEff
  split
  · exact le_refl now2
  · exact h12

theorem acquire_pairwise (rl : RateLimiter) (now now2 : ℚ)
    (hs : rl.requests.Pairwise (· ≤ ·))
    (hb : ∀ t ∈ rl.requests, t ≤ now) (h12 : now ≤ now2) :
    (rl.acquire now now2).1.requests.Pairwise (· ≤ ·)
    ∧ ∀ t ∈ (rl.acquire now now2).1.requests, t ≤ rl.acquireEff now now2 := by
  rw [acquire_requests_eq rl now now2 hs hb h12]
  have heff : now ≤ rl.acquireEff now now2 := le_acquireEff rl now now2 h12
  constructor
  · apply List.Pairwise.filter
    rw [List.pairwise_append]
    refine ⟨hs, List.pairwise_singleton _ _, ?_⟩
    intro a ha b hb'
    rw [List.mem_singleton] at hb'
    subst hb'
    exact le_trans (hb a ha) heff
  · intro t ht
    have ht' := List.mem_of_mem_filter ht
    rw [List.mem_append] at ht'
    rcases ht' with h | h
    · exact le_trans (hb t h) heff
    · rw [List.mem_singleton] at h
      subst h
      exact le_refl _

theorem clockMono_anti (T T' : ℚ) (h : T' ≤ T) :
    ∀ calls, RateLimiter.clockMono T calls → RateLimiter.clockMono T' calls
  | [], _ => trivial
  | (_, _) :: _, ⟨h1, h2, h3⟩ => ⟨le_trans h h1, h2, h3⟩

theorem le_lastEff : ∀ (calls : List (ℚ × ℚ)) (rl : RateLimiter) (T : ℚ),
    RateLimiter.clockMono T calls → T ≤ RateLimiter.lastEff rl T calls := by
  intro calls
  induction calls with
  | nil => intro rl T _; exact le_refl T
  | cons c rest ih =>
    obtain ⟨n1, n2⟩ := c
    intro rl T h
    obtain ⟨h1, h2, h3⟩ := h
    have hT' : T ≤ rl.acquireEff n1 n2 := le_trans h1 (le_acquireEff rl n1 n2 h2)
    have hmono : RateLimiter.clockMono (rl.acquireEff n1 n2) rest :=
      clockMono_anti n2 _ (acquireEff_le rl n1 n2 h2) rest h3
    exact le_trans hT' (ih (rl.acquire n1 n2).1 _ hmono)

theorem filter_append_window (req A : List ℚ) (T' L : ℚ) (h : T' ≤ L) :
    ((req ++ [T']).filter (fun t => decide (T' - t ≤ windowSize)) ++ A).filter
        (fun t => decide (L - t ≤ windowSize))
      = (req ++ T' :: A).filter (fun t => decide (L - t ≤ windowSize)) := by
  rw [List.filter_append, filter_window_mono T' L h, ← List.filter_append,
      List.append_assoc, List.singleton_append]

theorem runAcquires_requests :
    ∀ (calls : List (ℚ × ℚ)) (rl : RateLimiter) (T : ℚ),
      rl.requests.Pairwise (· ≤ ·) →
      (∀ t ∈ rl.requests, t ≤ T) →
      rl.requests.filter (fun t => decide (T - t ≤ windowSize)) = rl.requests →
      RateLimiter.clockMono T calls →
      (RateLimiter.runAcquires rl calls).requests
        = (rl.requests ++ RateLimiter.admittedTimes rl calls).filter
            (fun t => decide (RateLimiter.lastEff rl T calls - t ≤ windowSize)) := by
  intro calls
  induction calls with
  | nil =>
    intro rl T _ _ hfresh _
    simp only [RateLimiter.runAcquires, RateLimiter.admittedTimes,
      RateLimiter.lastEff, List.append_nil]
    exact hfresh.symm
  | cons c rest ih =>
    obtain ⟨n1, n2⟩ := c
    intro rl T hs hb hfresh hck
    obtain ⟨h1, h2, h3⟩ := hck
    have hbn : ∀ t ∈ rl.requests, t ≤ n1 := fun t ht => le_trans (hb t ht) h1
    have hreq : (rl.acquire n1 n2).1.requests
        = (rl.requests ++ [rl.acquireEff n1 n2]).filter
            (fun t => decide (rl.acquireEff n1 n2 - t ≤ windowSize)) :=
      acquire_requests_eq rl n1 n2 hs hbn h2
    have hinv := acquire_pairwise rl n1 n2 hs hbn h2
    have hfresh' : (rl.acquire n1 n2).1.requests.filter
        (fun t => decide (rl.acquireEff n1 n2 - t ≤ windowSize))
        = (rl.acquire n1 n2).1.requests := by
      rw [hreq, filter_window_idem]
    have hck' : RateLimiter.clockMono (rl.acquireEff n1 n2) rest :=
      clockMono_anti n2 _ (acquireEff_le rl n1 n2 h2) rest h3
    have hmain := ih (rl.acquire n1 n2).1 (rl.acquireEff n1 n2) hinv.1 hinv.2 hfresh' hck'
    have hT'L : rl.acquireEff n1 n2
        ≤ RateLimiter.lastEff (rl.acquire n1 n2).1 (rl.acquireEff n1 n2) rest :=
      le_lastEff rest (rl.acquire n1 n2).1 _ hck'
    show (RateLimiter.runAcquires (rl.acquire n1 n2).1 rest).requests = _
    rw [hmain, hreq]
    exact filter_append_window rl.requests
      (RateLimiter.admittedTimes (rl.acquire n1 n2).1 rest) _ _ hT'L

theorem acquire_at_capacity (rl : RateLimiter) (now now2 : ℚ)
    (hs : rl.requests.Pairwise (· ≤ ·))
    (hlen : rl.requests.length = rl.requests_per_minute)
    (hpos : 0 < rl.requests_per_minute)
    (hwin : ∀ t ∈ rl.requests, t ≤ now ∧ now - t ≤ windowSize) :
    windowSize - (now - rl.requests.headD 0) ≤ (rl.acquire now now2).2
    ∧ (now + (windowSize - (now - rl.requests.headD 0)) < now2 →
        ((rl.acquire now now2).1.get_current_usage now2).2
          ≤ rl.requests_per_minute) := by
  have hpurge : purge now rl.requests = rl.requests := by
    rw [purge_eq_filter now rl.requests hs, List.filter_eq_self]
    intro t ht
    exact decide_eq_true (hwin t ht).2
  have hcap : rl.requests_per_minute ≤ (purge now rl.requests).length := by
    rw [hpurge, hlen]
  have hacq : rl.acquire now now2
      = ({ rl with requests := purge now2 rl.requests ++ [now2] },
         max (windowSize - (now - rl.requests.headD 0)) 0) := by
    simp only [RateLimiter.acquire, hpurge]
    rw [if_pos hlen.ge]
  constructor
  · rw [hacq]
    exact le_max_left _ _
  · intro hn2
    obtain ⟨t, rest, hreq⟩ : ∃ t rest, rl.requests = t :: rest := by
      cases hreqs : rl.requests with
      | nil =>
        rw [hreqs] at hlen
        simp at hlen
        omega
      | cons t rest => exact ⟨t, rest, rfl⟩
    rw [hreq] at hn2
    simp only [List.headD_cons] at hn2
    have ht : (60 : ℚ) + t < now2 := by
      have hw : windowSize = (60 : ℚ) := rfl
      rw [hw] at hn2
      linarith
    have hdrop : purge now2 rl.requests = purge now2 rest := by
      rw [hreq, purge, List.dropWhile_cons,
        decide_eq_true (show windowSize < now2 - t by rw [show windowSize = (60 : ℚ) from rfl]; linarith)]
      rfl
    rw [hacq]
    simp only [RateLimiter.get_current_usage]
    have h1 : (purge now2 (purge now2 rl.requests ++ [now2])).length
        ≤ (purge now2 rl.requests ++ [now2]).length :=
      (List.dropWhile_sublist _).length_le
    have h2 : (purge now2 rl.requests ++ [now2]).length
        = (purge now2 rest).length + 1 := by
      rw [hdrop, List.length_append, List.length_singleton]
    have h3 : (purge now2 rest).length ≤ rest.length :=
      (List.dropWhile_sublist _).length_le
    have h4 : rest.length + 1 = rl.requests_per_minute := by
      rw [← hlen, hreq, List.length_cons]
    omega

/-- Claim C4: starting from an empty limiter, after any monotone-clock
sequence of `acquire()` calls the retained timestamps are exactly the
admitted request times lying within the trailing 60-second window of the
last admission; and when `capacity` admitted requests fill the window, the
next `acquire` sleeps at least `window − (now − oldest_admitted)` and — the
post-sleep clock reading having passed the sleep deadline —
`usage().current_requests ≤ capacity` afterwards. -/
theorem rate_limiter_window_C4 :
    (∀ (cap : Nat) (T0 : ℚ) (calls : List (ℚ × ℚ)),
      RateLimiter.clockMono T0 calls →
      (RateLimiter.runAcquires ⟨cap, []⟩ calls).requests
        = (RateLimiter.admittedTimes ⟨cap, []⟩ calls).filter
            (fun t => decide
              (RateLimiter.lastEff ⟨cap, []⟩ T0 calls - t ≤ windowSize)))
    ∧ (∀ (rl : RateLimiter) (now now2 : ℚ),
      rl.requests.Pairwise (· ≤ ·) →
      rl.requests.length = rl.requests_per_minute →
      0 < rl.requests_per_minute →
      (∀ t ∈ rl.requests, t ≤ now ∧ now - t ≤ windowSize) →
      windowSize - (now - rl.requests.headD 0) ≤ (rl.acquire now now2).2
      ∧ (now + (windowSize - (now - rl.requests.headD 0)) < now2 →
          ((rl.acquire now now2).1.get_current_usage now2).2
            ≤ rl.requests_per_minute)) := by
  constructor
  · intro cap T0 calls hck
    have h := runAcquires_requests calls ⟨cap, []⟩ T0
      (List.Pairwise.nil) (by intro t ht; cases ht) rfl hck
    simpa using h
  · intro rl now now2 hs hlen hpos hwin
    exact acquire_at_capacity rl now now2 hs hlen hpos hwin

theorem rate_limiter_window_C4_witness :
    ((RateLimiter.runAcquires ⟨1, []⟩ [(0, 0), (5, 65)]).requests
        = (RateLimiter.admittedTimes ⟨1, []⟩ [(0, 0), (5, 65)]).filter
            (fun t => decide
              (RateLimiter.lastEff ⟨1, []⟩ 0 [(0, 0), (5, 65)] - t ≤ windowSize)))
    ∧ windowSize - (2 - (([0, 1] : List ℚ).headD 0))
        ≤ ((⟨2, [0, 1]⟩ : RateLimiter).acquire 2 61).2
    ∧ (((⟨2, [0, 1]⟩ : RateLimiter).acquire 2 61).1.get_current_usage 61).2 ≤ 2 := by
  have hck : RateLimiter.clockMono 0 [((0 : ℚ), (0 : ℚ)), (5, 65)] :=
    ⟨le_refl 0, le_refl 0, by norm_num, by norm_num, trivial⟩
  have h2 := rate_limiter_window_C4.2 ⟨2, [0, 1]⟩ 2 61
    (by norm_num [List.pairwise_cons]) rfl (by norm_num)
    (by
      intro t ht
      rw [List.mem_cons, List.mem_singleton] at ht
      rcases ht with rfl | rfl <;> constructor <;> norm_num [windowSize])
  refine ⟨rate_limiter_window_C4.1 1 0 _ hck, h2.1, h2.2 ?_⟩
  norm_num [windowSize]

/-! ## Vector store (`src/rag/vector_store.py`)

The embedding model is an explicit parameter `encode` (deterministic per
the gateway contract). -/

/-- A metadata dict stored with a message; each key is `some` when
present (Python dict access uses `.get` with defaults). -/
structure Metadata where
  url : Option String := none
  author : Option String := none
  timestamp : Option String := none
  channel : Option String := none
  tags : Option String := none
deriving DecidableEq, Repr

/-- A record stored in the collection: embedding, document, metadata. -/
structure StoredRecord where
  embedding : List ℚ
  document : String
  metadata : Metadata
deriving DecidableEq, Repr

/-- Modelled from the spec: the external ChromaDB collection is specified
only at its interface — §4.2 Embedding/Index Gateway: "upsert(id, vector,
text, metadata) / upsert_batch(...): idempotent overwrite by id",
"count() → int".  The collection is an association list keyed by id, with
writes overwriting in place. -/
structure Collection where
  entries : List (String × StoredRecord)
deriving DecidableEq, Repr

/-- Model of `VectorStore.count`: number of stored records. -/
def Collection.count (c : Collection) : Nat := c.entries.length

namespace VectorStore

/-- Model of `add_message`: embed `content` and store under `message_id`. -/
def add_message (encode : String → List ℚ) (c : Collection)
    (message_id content : String) (metadata : Metadata) : Collection :=
  ⟨listInsert message_id ⟨encode content, content, metadata⟩ c.entries⟩

/-- Model of `add_messages_batch`: embed all contents and store the aligned triples
in order. -/
def add_messages_batch (encode : String → List ℚ) (c : Collection)
    (message_ids contents : List String) (metadatas : List Metadata) :
    Collection :=
  (message_ids.zip (contents.zip metadatas)).foldl
    (fun acc p => add_message encode acc p.1 p.2.1 p.2.2) c

end VectorStore

theorem lookup_listInsert (k k' : String) (v : α) :
    ∀ l : List (String × α),
      (listInsert k' v l).lookup k = if k = k' then some v else l.lookup k := by
  intro l
  induction l with
  | nil =>
    by_cases h : k = k'
    · simp [listInsert, List.lookup, h]
    · simp [listInsert, List.lookup, h, beq_eq_false_iff_ne.mpr h]
  | cons p rest ih =>
    obtain ⟨k0, v0⟩ := p
    by_cases h0 : k0 = k'
    · subst h0
      rw [listInsert, if_pos rfl]
      by_cases h : k = k0
      · simp [List.lookup, h]
      · simp [List.lookup, h, beq_eq_false_iff_ne.mpr h]
    · rw [listInsert, if_neg h0]
      by_cases h : k = k0
      · subst h
        have hkk' : ¬ k = k' := h0
        simp [List.lookup, hkk']
      · have hbeq : (k == k0) = false := by
          simp only [beq_eq_false_iff_ne, ne_eq]
          exact h
        simp [List.lookup, hbeq, ih]

theorem countP_listInsert (k : String) (v : α) :
    ∀ l : List (String × α), (l.map Prod.fst).Nodup →
      (listInsert k v l).countP (fun p => decide (p.1 = k)) = 1 := by
  intro l
  induction l with
  | nil => intro _; simp [listInsert]
  | cons p rest ih =>
    obtain ⟨k0, v0⟩ := p
    intro hnd
    rw [List.map_cons, List.nodup_cons] at hnd
    obtain ⟨hk0, hrest⟩ := hnd
    by_cases h0 : k0 = k
    · subst h0
      rw [listInsert, if_pos rfl, List.countP_cons]
      have hz : rest.countP (fun p => decide (p.1 = k0)) = 0 := by
        rw [List.countP_eq_zero]
        intro a ha
        simp only [decide_eq_true_eq]
        intro hak
        have hm : a.1 ∈ rest.map Prod.fst := List.mem_map_of_mem Prod.fst ha
        rw [hak] at hm
        exact hk0 hm
      simp [hz]
    · rw [listInsert, if_neg h0, List.countP_cons]
      have hfalse : (decide ((k0, v0).1 = k)) = false := by
        simp only [decide_eq_false_iff_not]
        exact h0
      simp [hfalse, ih hrest]

theorem length_listInsert_of_mem (k : String) (v : α) :
    ∀ l : List (String × α), k ∈ l.map Prod.fst →
      (listInsert k v l).length = l.length := by
  intro l
  induction l with
  | nil => intro h; cases h
  | cons p rest ih =>
    obtain ⟨k0, v0⟩ := p
    intro hmem
    by_cases h0 : k0 = k
    · rw [listInsert, if_pos h0]
      rfl
    · rw [listInsert, if_neg h0, List.length_cons, List.length_cons]
      rw [List.map_cons, List.mem_cons] at hmem
      rcases hmem with h | h
      · exact absurd h.symm h0
      · rw [ih h]

theorem mem_keys_listInsert (k : String) (v : α) :
    ∀ l : List (String × α), k ∈ (listInsert k v l).map Prod.fst := by
  intro l
  induction l with
  | nil => simp [listInsert]
  | cons p rest ih =>
    obtain ⟨k0, v0⟩ := p
    by_cases h0 : k0 = k
    · simp [listInsert, h0]
    · rw [listInsert, if_neg h0, List.map_cons, List.mem_cons]
      exact Or.inr ih

theorem mem_keys_of_mem_listInsert (x k : String) (v : α) :
    ∀ l : List (String × α),
      x ∈ (listInsert k v l).map Prod.fst → x = k ∨ x ∈ l.map Prod.fst := by
  intro l
  induction l with
  | nil =>
    intro h
    simp only [listInsert, List.map_cons, List.map_nil, List.mem_singleton] at h
    exact Or.inl h
  | cons p rest ih =>
    obtain ⟨k0, v0⟩ := p
    intro h
    by_cases h0 : k0 = k
    · rw [listInsert, if_pos h0, List.map_cons, List.mem_cons] at h
      rcases h with h | h
      · exact Or.inl h
      · exact Or.inr (List.mem_cons_of_mem _ h)
    · rw [listInsert, if_neg h0, List.map_cons, List.mem_cons] at h
      rcases h with h | h
      · exact Or.inr (h ▸ List.mem_cons_self _ _)
      · rcases ih h with h' | h'
        · exact Or.inl h'
        · exact Or.inr (List.mem_cons_of_mem _ h')

theorem nodup_keys_listInsert (k : String) (v : α) :
    ∀ l : List (String × α), (l.map Prod.fst).Nodup →
      ((listInsert k v l).map Prod.fst).Nodup := by
  intro l
  induction l with
  | nil => intro _; simp [listInsert]
  | cons p rest ih =>
    obtain ⟨k0, v0⟩ := p
    intro hnd
    rw [List.map_cons, List.nodup_cons] at hnd
    obtain ⟨hk0, hrest⟩ := hnd
    by_cases h0 : k0 = k
    · subst h0
      rw [listInsert, if_pos rfl, List.map_cons, List.nodup_cons]
      exact ⟨hk0, hrest⟩
    · rw [listInsert, if_neg h0, List.map_cons, List.nodup_cons]
      refine ⟨?_, ih hrest⟩
      intro hmem
      rcases mem_keys_of_mem_listInsert k0 k v rest hmem with h | h
      · exact h0 h
      · exact hk0 h

/-- Claim C2: storing a message id twice with different content is an
overwrite, not an error — exactly one record remains for the id, it holds
the latest content and metadata, and the count does not grow on the second
store. -/
theorem vector_store_overwrite_C2 (encode : String → List ℚ) (c : Collection)
    (message_id content1 content2 : String) (meta1 meta2 : Metadata)
    (hnd : (c.entries.map Prod.fst).Nodup) :
    (VectorStore.add_message encode
        (VectorStore.add_message encode c message_id content1 meta1)
        message_id content2 meta2).entries.lookup message_id
      = some ⟨encode content2, content2, meta2⟩
    ∧ (VectorStore.add_message encode
        (VectorStore.add_message encode c message_id content1 meta1)
        message_id content2 meta2).entries.countP
          (fun p => decide (p.1 = message_id)) = 1
    ∧ (VectorStore.add_message encode
        (VectorStore.add_message encode c message_id content1 meta1)
        message_id content2 meta2).count
      = (VectorStore.add_message encode c message_id content1 meta1).count := by
  refine ⟨?_, ?_, ?_⟩
  · exact lookup_listInsert_self message_id _ _
  · exact countP_listInsert message_id _ _
      (nodup_keys_listInsert message_id _ c.entries hnd)
  · exact length_listInsert_of_mem message_id _ _
      (mem_keys_listInsert message_id _ c.entries)

theorem vector_store_overwrite_C2_witness :
    (((⟨[]⟩ : Collection).entries.map Prod.fst).Nodup)
    ∧ (VectorStore.add_message (fun _ => [])
          (VectorStore.add_message (fun _ => []) ⟨[]⟩ "id1" "old" {})
          "id1" "new" {}).entries.lookup "id1"
        = some ⟨[], "new", {}⟩
    ∧ (VectorStore.add_message (fun _ => [])
          (VectorStore.add_message (fun _ => []) ⟨[]⟩ "id1" "old" {})
          "id1" "new" {}).count
        = (VectorStore.add_message (fun _ => []) ⟨[]⟩ "id1" "old" {}).count := by
  have h := vector_store_overwrite_C2 (fun _ => []) ⟨[]⟩ "id1" "old" "new" {} {}
    (by simp)
  exact ⟨by simp, h.1, h.2.2⟩

/-! ## Message processor (`src/rag/message_processor.py`) -/

/-- The optional nested `metadata` dict of a raw message. -/
structure RawMeta where
  channel : Option String := none
  tags : Option (List String) := none
deriving DecidableEq, Repr

/-- A raw message record: each Python dict key is `some` when present. -/
structure RawMessage where
  message_id : Option String := none
  url : Option String := none
  author : Option String := none
  timestamp : Option String := none
  content : Option String := none
  metadata : Option RawMeta := none
deriving DecidableEq, Repr

/-- Python `str.strip()`: drop leading and trailing whitespace. -/
def pyStrip (s : String) : String :=
  ⟨((s.data.dropWhile Char.isWhitespace).reverse.dropWhile
      Char.isWhitespace).reverse⟩

namespace MessageProcessor

/-- Model of `validate_message`: the five required fields are present and the content
is non-empty after trimming whitespace. -/
def validate_message (message : RawMessage) : Bool :=
  message.message_id.isSome && message.url.isSome && message.author.isSome
    && message.timestamp.isSome && message.content.isSome
    && !(pyStrip (message.content.getD "") == "")

/-- The vector-store metadata built for a valid message (`channel` defaults
to "unknown", tags are comma-joined). -/
def buildMetadata (message : RawMessage) : Metadata :=
  let metadata_extra := message.metadata.getD {}
  { url := some (message.url.getD "")
    author := some (message.author.getD "")
    timestamp := some (message.timestamp.getD "")
    channel := some (metadata_extra.channel.getD "unknown")
    tags := some (String.intercalate "," (metadata_extra.tags.getD [])) }

/-- Model of `process_messages_batch`: validate each record, skip invalid ones, bulk
add the valid subset, return the number of records processed. -/
def process_messages_batch (encode : String → List ℚ) (store : Collection)
    (messages : List RawMessage) : Collection × Nat :=
  let valid_messages := messages.filter validate_message
  let message_ids := valid_messages.map (fun m => m.message_id.getD "")
  let contents := valid_messages.map (fun m => m.content.getD "")
  let metadatas := valid_messages.map buildMetadata
  if valid_messages.isEmpty then (store, valid_messages.length)
  else
    (VectorStore.add_messages_batch encode store message_ids contents metadatas,
     valid_messages.length)

end MessageProcessor

theorem lookup_isSome_batch (encode : String → List ℚ) :
    ∀ (pairs : List (String × String × Metadata)) (c : Collection) (k : String),
      k ∈ pairs.map Prod.fst ∨ (c.entries.lookup k).isSome = true →
      ((pairs.foldl
          (fun acc p => VectorStore.add_message encode acc p.1 p.2.1 p.2.2)
          c).entries.lookup k).isSome = true := by
  intro pairs
  induction pairs with
  | nil =>
    intro c k h
    rcases h with h | h
    · cases h
    · exact h
  | cons p rest ih =>
    intro c k h
    rw [List.foldl_cons]
    apply ih
    by_cases hk : k = p.1
    · right
      show ((listInsert p.1 _ c.entries).lookup k).isSome = true
      rw [hk, lookup_listInsert_self]
      rfl
    · rcases h with h | h
      · rw [List.map_cons, List.mem_cons] at h
        rcases h with h | h
        · exact absurd h hk
        · exact Or.inl h
      · right
        show ((listInsert p.1 _ c.entries).lookup k).isSome = true
        rw [lookup_listInsert k p.1 _ c.entries, if_neg hk]
        exact h

/-- Claim C7: batch ingestion validates each record independently and never
aborts on a bad record; the valid subset is committed to the store and the
returned count equals the number of valid records. -/
theorem batch_ingestion_C7 (encode : String → List ℚ) (store : Collection)
    (messages : List RawMessage) :
    (MessageProcessor.process_messages_batch encode store messages).2
      = (messages.filter MessageProcessor.validate_message).length
    ∧ ∀ msg ∈ messages, MessageProcessor.validate_message msg = true →
      ((MessageProcessor.process_messages_batch encode
            store messages).1.entries.lookup
          (msg.message_id.getD "")).isSome = true := by
  constructor
  · simp only [MessageProcessor.process_messages_batch]
    split
    · rfl
    · rfl
  · intro msg hmem hvalid
    have hmv : msg ∈ messages.filter MessageProcessor.validate_message :=
      List.mem_filter.mpr ⟨hmem, hvalid⟩
    simp only [MessageProcessor.process_messages_batch]
    split
    · next hemp =>
      rw [List.isEmpty_iff] at hemp
      rw [hemp] at hmv
      cases hmv
    · show ((VectorStore.add_messages_batch encode store _ _ _).entries.lookup
          (msg.message_id.getD "")).isSome = true
      unfold VectorStore.add_messages_batch
      rw [List.zip_map', List.zip_map']
      apply lookup_isSome_batch
      left
      rw [List.map_map]
      exact List.mem_map_of_mem _ hmv

theorem batch_ingestion_C7_witness :
    (MessageProcessor.process_messages_batch (fun _ => []) ⟨[]⟩
        [{ message_id := some "id1", url := some "u", author := some "a",
           timestamp := some "t", content := some "hello" },
         { message_id := some "id2" }]).2 = 1
    ∧ ((MessageProcessor.process_messages_batch (fun _ => []) ⟨[]⟩
        [{ message_id := some "id1", url := some "u", author := some "a",
           timestamp := some "t", content := some "hello" },
         { message_id := some "id2" }]).1.entries.lookup "id1").isSome = true := by
  have h := batch_ingestion_C7 (fun _ => []) ⟨[]⟩
    [{ message_id := some "id1", url := some "u", author := some "a",
       timestamp := some "t", content := some "hello" },
     { message_id := some "id2" }]
  constructor
  · rw [h.1]
    decide
  · exact h.2
      { message_id := some "id1", url := some "u", author := some "a",
        timestamp := some "t", content := some "hello" }
      (List.mem_cons_self _ _) (by decide)

/-! ## Search and query engine (`src/rag/vector_store.py` /
`src/rag/query_engine.py`)

The external index query is abstracted by its reply `raw` (aligned ids,
documents, metadatas, distances); the LLM completion and the prompt
template loaded from configuration are explicit function parameters. -/

/-- A raw nearest-neighbour hit returned by the index: id, document,
metadata, cosine distance. -/
structure RawResult where
  id : String
  content : String
  metadata : Metadata
  distance : ℚ
deriving DecidableEq, Repr

/-- A formatted search result with `score = 1 - distance`. -/
structure SearchResult where
  id : String
  content : String
  metadata : Metadata
  score : ℚ
deriving DecidableEq, Repr

/-- Model of `VectorStore.search` result formatting: similarity is `1 − distance`;
hits with `similarity < min_similarity` are skipped when a threshold is
given. -/
def VectorStore.search (raw : List RawResult) (min_similarity : Option ℚ) :
    List SearchResult :=
  raw.filterMap (fun r =>
    let similarity := 1 - r.distance
    match min_similarity with
    | some t =>
      if similarity < t then none
      else some ⟨r.id, r.content, r.metadata, similarity⟩
    | none => some ⟨r.id, r.content, r.metadata, similarity⟩)

/-- A source entry of a query response. -/
structure Source where
  url : String
  author : String
  timestamp : String
  score : ℚ
  content_preview : String
deriving DecidableEq, Repr

/-- A query response dict; `num_sources` is `none` when that key is absent
from the dict (the empty-result branch builds the dict without it). -/
structure QueryResponse where
  answer : String
  sources : List Source
  context_used : List SearchResult
  num_sources : Option Nat
deriving DecidableEq, Repr

namespace QueryEngine

/-- Model of `_format_context`: 1-indexed message blocks joined by a blank line. -/
def formatContext (results : List SearchResult) : String :=
  String.intercalate "\n"
    ((results.enumFrom 1).map (fun p =>
      "Message " ++ toString p.1 ++ ":\nAuthor: "
        ++ p.2.metadata.author.getD "Unknown"
        ++ "\nTimestamp: " ++ p.2.metadata.timestamp.getD ""
        ++ "\nURL: " ++ p.2.metadata.url.getD ""
        ++ "\nContent: " ++ p.2.content ++ "\n"))

/-- The source entry built from a search result: metadata defaults and a
100-character preview with an ellipsis when truncated. -/
def mkSource (r : SearchResult) : Source :=
  { url := r.metadata.url.getD ""
    author := r.metadata.author.getD "Unknown"
    timestamp := r.metadata.timestamp.getD ""
    score := r.score
    content_preview :=
      if 100 < r.content.length then r.content.take 100 ++ "..."
      else r.content }

/-- The fixed fallback answer of the empty-result branch. -/
def fallbackAnswer : String :=
  "I couldn't find any relevant messages to answer your question."

/-- Model of `QueryEngine.query`: search, short-circuit when the filtered result set
is empty, otherwise format context, fill the template, call the LLM and
build the sources.  Returns the response dict paired with the number of LLM
completion calls made. -/
def query (llm : String → String) (template : String → String → String)
    (raw : List RawResult) (min_similarity : ℚ) (question : String) :
    QueryResponse × Nat :=
  let results := VectorStore.search raw (some min_similarity)
  if results.isEmpty then
    ({ answer := fallbackAnswer, sources := [], context_used := [],
       num_sources := none }, 0)
  else
    let context := formatContext results
    let prompt := template context question
    let answer := llm prompt
    let sources := results.map mkSource
    ({ answer := answer, sources := sources, context_used := results,
       num_sources := some sources.length }, 1)

/-- Whether the character list `s` begins with the character list `pat`. -/
def charsBeginWith : List Char → List Char → Bool
  | _, [] => true
  | [], _ :: _ => false
  | a :: as, b :: bs => a == b && charsBeginWith as bs

/-- Whether the character list `pat` occurs inside the character list `s`. -/
def charsContain : List Char → List Char → Bool
  | [], pat => pat.isEmpty
  | a :: rest, pat => charsBeginWith (a :: rest) pat || charsContain rest pat

/-- Model of the Python substring test `pat in s`. -/
def containsMarker (s pat : String) : Bool := charsContain s.data pat.data

/-- Model of `QueryEngine.format_response`: answer verbatim when there are no
sources; otherwise append a sources section unless the answer already
contains the literal marker "Sources:". -/
def format_response (response : QueryResponse) : String :=
  let output := response.answer
  if response.sources.isEmpty then output
  else if containsMarker output "Sources:" then output
  else
    output ++ "\n\nSources:\n"
      ++ String.join (response.sources.map (fun source =>
          "- " ++ source.content_preview ++ " by " ++ source.author
            ++ " (" ++ source.url ++ ")\n"))

end QueryEngine

/-- Claim C1 (amended): when the similarity filter leaves no results,
`query()` returns the fixed fallback answer with empty sources and makes no
LLM completion call; the returned dict carries no `num_sources` key at all
(modelled as `none`) rather than `num_sources == 0`. -/
theorem query_empty_short_circuit_C1 (llm : String → String)
    (template : String → String → String) (raw : List RawResult)
    (min_similarity : ℚ) (question : String)
    (h : VectorStore.search raw (some min_similarity) = []) :
    QueryEngine.query llm template raw min_similarity question
      = ({ answer := QueryEngine.fallbackAnswer, sources := [],
           context_used := [], num_sources := none }, 0) := by
  simp [QueryEngine.query, h]

theorem query_empty_short_circuit_C1_witness :
    VectorStore.search [] (some 0) = []
    ∧ QueryEngine.query (fun _ => "llm-was-called") (fun _ _ => "") [] 0 "q"
        = ({ answer := QueryEngine.fallbackAnswer, sources := [],
             context_used := [], num_sources := none }, 0) :=
  ⟨rfl, query_empty_short_circuit_C1 (fun _ => "llm-was-called")
    (fun _ _ => "") [] 0 "q" rfl⟩

/-- Counterexample to claim C1 as stated: in the empty-result branch the
response dict has no `num_sources` entry (`none`), so its `num_sources`
does not equal 0. -/
theorem query_empty_num_sources_C1_counterexample :
    (QueryEngine.query (fun _ => "") (fun _ _ => "") [] 0 "q").1.num_sources
      ≠ some 0 := by
  decide

theorem search_length_mono (raw : List RawResult) (t1 t2 : ℚ) (h : t1 ≤ t2) :
    (VectorStore.search raw (some t2)).length
      ≤ (VectorStore.search raw (some t1)).length := by
  induction raw with
  | nil => exact le_refl 0
  | cons r rest ih =>
    simp only [VectorStore.search, List.filterMap_cons] at ih ⊢
    by_cases h1 : 1 - r.distance < t1
    · have h2 : 1 - r.distance < t2 := lt_of_lt_of_le h1 h
      simp only [if_pos h1, if_pos h2]
      exact ih
    · by_cases h2 : 1 - r.distance < t2
      · simp only [if_pos h2, if_neg h1, List.length_cons]
        exact le_trans ih (Nat.le_succ _)
      · simp only [if_neg h1, if_neg h2, List.length_cons]
        exact Nat.succ_le_succ ih

theorem query_sources_length (llm : String → String)
    (template : String → String → String) (raw : List RawResult)
    (t : ℚ) (question : String) :
    (QueryEngine.query llm template raw t question).1.sources.length
      = (VectorStore.search raw (some t)).length := by
  simp only [QueryEngine.query]
  split
  · next hemp =>
    rw [List.isEmpty_iff] at hemp
    simp [hemp]
  · simp

/-- Claim C8: for a fixed question and corpus and thresholds `t1 ≤ t2`, the
number of sources returned by `query()` at `min_similarity = t2` is at most
the number returned at `min_similarity = t1`. -/
theorem threshold_monotonicity_C8 (llm : String → String)
    (template : String → String → String) (raw : List RawResult)
    (question : String) (t1 t2 : ℚ) (h : t1 ≤ t2) :
    (QueryEngine.query llm template raw t2 question).1.sources.length
      ≤ (QueryEngine.query llm template raw t1 question).1.sources.length := by
  rw [query_sources_length, query_sources_length]
  exact search_length_mono raw t1 t2 h

theorem threshold_monotonicity_C8_witness :
    ((1 : ℚ) / 2) ≤ (9 : ℚ) / 10
    ∧ (QueryEngine.query (fun _ => "ans") (fun _ _ => "")
          [⟨"m1", "c1", {}, 1/5⟩, ⟨"m2", "c2", {}, 2/5⟩] ((9 : ℚ) / 10)
          "q").1.sources.length
      ≤ (QueryEngine.query (fun _ => "ans") (fun _ _ => "")
          [⟨"m1", "c1", {}, 1/5⟩, ⟨"m2", "c2", {}, 2/5⟩] ((1 : ℚ) / 2)
          "q").1.sources.length :=
  ⟨by norm_num,
   threshold_monotonicity_C8 (fun _ => "ans") (fun _ _ => "")
     [⟨"m1", "c1", {}, 1/5⟩, ⟨"m2", "c2", {}, 2/5⟩] "q"
     ((1 : ℚ) / 2) ((9 : ℚ) / 10) (by norm_num)⟩

/-- Claim C9: with no sources `format_response` returns the answer verbatim;
with sources and without the literal substring "Sources:" in the answer it
returns the answer followed by a sources section with exactly one line per
source, `- {preview} by {author} ({url})`, in source order; with the
substring present the answer is returned unchanged. -/
theorem format_response_C9 (response : QueryResponse) :
    (response.sources = [] →
      QueryEngine.format_response response = response.answer)
    ∧ (response.sources ≠ [] →
        QueryEngine.containsMarker response.answer "Sources:" = false →
        QueryEngine.format_response response
          = response.answer ++ "\n\nSources:\n"
              ++ String.join (response.sources.map (fun source =>
                  "- " ++ source.content_preview ++ " by " ++ source.author
                    ++ " (" ++ source.url ++ ")\n")))
    ∧ (response.sources ≠ [] →
        QueryEngine.containsMarker response.answer "Sources:" = true →
        QueryEngine.format_response response = response.answer) := by
  refine ⟨?_, ?_, ?_⟩
  · intro h1
    simp [QueryEngine.format_response, h1]
  · intro h1 h2
    simp [QueryEngine.format_response, List.isEmpty_iff, h1, h2]
  · intro h1 h2
    simp [QueryEngine.format_response, List.isEmpty_iff, h1, h2]

theorem format_response_C9_witness :
    QueryEngine.format_response
        { answer := "A", sources := [], context_used := [],
          num_sources := some 0 } = "A"
    ∧ QueryEngine.format_response
        { answer := "A",
          sources := [{ url := "u", author := "alice", timestamp := "t",
                        score := 1, content_preview := "p" }],
          context_used := [], num_sources := some 1 }
        = "A\n\nSources:\n- p by alice (u)\n"
    ∧ QueryEngine.format_response
        { answer := "A Sources: B",
          sources := [{ url := "u", author := "alice", timestamp := "t",
                        score := 1, content_preview := "p" }],
          context_used := [], num_sources := some 1 }
        = "A Sources: B" := by
  refine ⟨(format_response_C9 _).1 rfl, ?_, ?_⟩
  · have h := (format_response_C9
      { answer := "A",
        sources := [{ url := "u", author := "alice", timestamp := "t",
                      score := 1, content_preview := "p" }],
        context_used := [], num_sources := some 1 }).2.1
      (by decide) (by decide)
    rw [h]
    decide
  · exact (format_response_C9
      { answer := "A Sources: B",
        sources := [{ url := "u", author := "alice", timestamp := "t",
                      score := 1, content_preview := "p" }],
        context_used := [], num_sources := some 1 }).2.2
      (by decide) (by decide)

end MessageRag
